import Mathlib

/-!
Verification of the walue_whatsapp_provider OAuth and usage-metering core.

The definitions below are a shallow embedding of the Python source:

* `walue_whatsapp_provider/api/oauth.py` — JWT-based token issuance and
  validation, the authorization-code and refresh-token grants, and the
  Redis-style cache used for one-time authorization codes.
* `walue_whatsapp_provider/api/metrics.py` — `report_usage`,
  `_get_balance_info`, bearer authentication.
* `walue_whatsapp_provider/api/calls.py` — `_authenticate_request`,
  `_calculate_call_cost`, `_record_call_metric`.
* `walue_whatsapp_provider/api/messages.py` — `_record_message_metric`.
* `walue_whatsapp_provider/doctype/...` — the `validate` / `before_save`
  document hooks for Daily Usage Metrics, Monthly Usage Summary and
  Customer Invoice.
* `walue_whatsapp_provider/tasks.py` — `_aggregate_customer_metrics`,
  `generate_monthly_invoices`, `_generate_customer_invoice`.

Money and durations are modelled as `Rat` (Python floats carry the exact
decimal literals appearing in the claims), counters as `Int` (Python ints
are unbounded), database tables as lists of records, and the shared cache
as an association list.  Concurrency is modelled by an explicit small-step
interleaving semantics in which each database/cache statement of the
source is one atomic step.
-/

namespace Walue

/-! ### Shared data model -/

/-- Error message constant `ERR_INVALID_TOKEN` from `constants.py`. -/
def ERR_INVALID_TOKEN : String := "Invalid or expired token."

/-- A row of the WhatsApp Customer doctype, with the fields the embedded
operations read: identifier (`name`), lifecycle `status`, registered site
URL, running balance and optional plan link. -/
structure Customer where
  name : String
  status : String
  frappe_site_url : String
  current_balance : Rat
  subscription_plan : Option String
deriving DecidableEq, Repr

/-- A row of the Subscription Plan doctype. -/
structure Plan where
  name : String
  base_monthly_fee : Rat
  call_markup_percentage : Rat
  message_markup_percentage : Rat
deriving DecidableEq, Repr

/-! ### JWT model (oauth.py)

A signed token is either well-signed with a claims payload, or malformed
(bad signature / garbage).  `jwt.decode` checks the signature and the
`exp` claim; PyJWT raises `ExpiredSignatureError` when `exp` is not in
the future. -/

/-- Claims payload of a JWT produced by `_generate_tokens`:
`customer_id`, the `type` claim (called `kind` here) and `exp`. -/
structure JwtPayload where
  customer_id : String
  kind : String
  exp : Int
deriving DecidableEq, Repr

/-- A presented token: either carries a validly signed payload or is
malformed. -/
inductive Jwt where
  | signed (p : JwtPayload)
  | malformed
deriving DecidableEq, Repr

/-- Outcome of `jwt.decode`: the payload, or one of the two exceptions
the source catches (`ExpiredSignatureError`, `InvalidTokenError`). -/
inductive DecodeResult where
  | ok (p : JwtPayload)
  | expired
  | invalid
deriving DecidableEq, Repr

/-- Behaviour of `jwt.decode(token, secret, algorithms=["HS256"])` at
time `now`. -/
def jwtDecode (t : Jwt) (now : Int) : DecodeResult :=
  match t with
  | .malformed => .invalid
  | .signed p => if p.exp ≤ now then .expired else .ok p

/-- Result of `validate_token`: the dict with `customer_id` and `exp`. -/
structure TokenInfo where
  customer_id : String
  exp : Int
deriving DecidableEq, Repr

/-- Model of `frappe.db.exists("WhatsApp Customer", customer_id)`. -/
def customerExists (db : List Customer) (customer_id : String) : Bool :=
  db.any (fun c => c.name == customer_id)

/-- Model of `frappe.get_doc("WhatsApp Customer", customer_id)` (first
row with the given name, if any). -/
def getCustomer (db : List Customer) (customer_id : String) : Option Customer :=
  db.find? (fun c => c.name == customer_id)

/-- Embedding of `oauth.validate_token`: decode the JWT, require the
`type` claim to be `"access"`, require the referenced customer to exist,
and return the customer info; `none` models every `return None` path
(including both caught exceptions). -/
def validate_token (db : List Customer) (now : Int) (access_token : Jwt) :
    Option TokenInfo :=
  match jwtDecode access_token now with
  | .expired => none
  | .invalid => none
  | .ok p =>
    if p.kind ≠ "access" then none
    else if ¬ customerExists db p.customer_id then none
    else some ⟨p.customer_id, p.exp⟩

/-- Result of the token endpoint branches: an OAuth error object
`(error, error_description)` or a freshly minted token pair
(`_generate_tokens` returns the two encoded JWTs, `token_type` is always
`"Bearer"`, and `expires_in` is the access-token TTL). -/
inductive TokenResult where
  | err (code : String) (description : String)
  | success (access : JwtPayload) (refresh : JwtPayload) (expires_in : Int)
deriving DecidableEq, Repr

/-- Embedding of `oauth._generate_tokens`: mints an access payload with
`type = "access"` and a refresh payload with `type = "refresh"`, both for
the authenticated customer, with the configured TTLs. -/
def generate_tokens (customer_id : String) (now accessExpiry refreshExpiry : Int) :
    TokenResult :=
  .success ⟨customer_id, "access", now + accessExpiry⟩
    ⟨customer_id, "refresh", now + refreshExpiry⟩ accessExpiry

/-- Embedding of `oauth._handle_refresh_token_grant` for an authenticated
customer: decode the presented refresh token, check the `customer_id`
claim against the client, check the `type` claim is `"refresh"`, then
mint a fresh pair.  All failure paths return error `"invalid_grant"`
except a missing parameter. -/
def handle_refresh_token_grant (customer : Customer)
    (refresh_token : Option Jwt) (now accessExpiry refreshExpiry : Int) :
    TokenResult :=
  match refresh_token with
  | none => .err "invalid_request" "Missing refresh_token"
  | some t =>
    match jwtDecode t now with
    | .expired => .err "invalid_grant" "Refresh token expired"
    | .invalid => .err "invalid_grant" ERR_INVALID_TOKEN
    | .ok p =>
      if p.customer_id ≠ customer.name then .err "invalid_grant" ERR_INVALID_TOKEN
      else if p.kind ≠ "refresh" then .err "invalid_grant" ERR_INVALID_TOKEN
      else generate_tokens customer.name now accessExpiry refreshExpiry

/-- Error code of a token-endpoint result, if it is an error. -/
def TokenResult.errorCode : TokenResult → Option String
  | .err c _ => some c
  | .success _ _ _ => none

/-! ### Token Store (frappe.cache) and the authorization-code grant -/

/-- Payload stored by `authorize()` under key `oauth_code:<code>`. -/
structure CodeData where
  customer_id : String
  redirect_uri : String
  created_at : Int
deriving DecidableEq, Repr

/-- The Redis-style cache: an association list from keys to code data. -/
abbrev Cache := List (String × CodeData)

/-- Model of `frappe.cache().get_value(key)`. -/
def cacheGet (c : Cache) (key : String) : Option CodeData :=
  (c.find? (fun e => e.1 == key)).map (fun e => e.2)

/-- Model of `frappe.cache().delete_value(key)`. -/
def cacheDelete (c : Cache) (key : String) : Cache :=
  c.filter (fun e => e.1 ≠ key)

/-- Model of `frappe.cache().set_value(key, v, ...)` (overwrite). -/
def cacheSet (c : Cache) (key : String) (v : CodeData) : Cache :=
  (key, v) :: cacheDelete c key

/-- Storage effect of `authorize()` on success: the minted code is
stored under `oauth_code:<code>` with the customer id and redirect URI. -/
def authorizeStore (c : Cache) (auth_code customer_name redirect_uri : String)
    (now : Int) : Cache :=
  cacheSet c ("oauth_code:" ++ auth_code) ⟨customer_name, redirect_uri, now⟩

/-- Embedding of `oauth._handle_authorization_code_grant`, run to
completion in isolation: look the code up in the cache, check it was
issued to this client with this redirect URI, delete it, mint tokens.
Returns the result together with the cache left behind. -/
def handle_authorization_code_grant (cache : Cache) (customer : Customer)
    (code : Option String) (redirect_uri : Option String)
    (now accessExpiry refreshExpiry : Int) : TokenResult × Cache :=
  match code with
  | none => (.err "invalid_request" "Missing code", cache)
  | some c =>
    match cacheGet cache ("oauth_code:" ++ c) with
    | none => (.err "invalid_grant" "Invalid or expired code", cache)
    | some d =>
      if d.customer_id ≠ customer.name then
        (.err "invalid_grant" "Code not issued to this client", cache)
      else if some d.redirect_uri ≠ redirect_uri then
        (.err "invalid_grant" "redirect_uri mismatch", cache)
      else
        (generate_tokens customer.name now accessExpiry refreshExpiry,
         cacheDelete cache ("oauth_code:" ++ c))

/-! ### Interleaving semantics for concurrent code redemption

The source performs two separate cache operations: `get_value` and
`delete_value`.  Each is one atomic step; the local checks and token
minting between them carry no shared state, so a redemption process is a
two-step program: (1) read the code data, (2) validate, delete, mint. -/

/-- Program counter of one in-flight redemption. -/
inductive RedeemPC where
  | ready
  | got (d : Option CodeData)
  | done (r : TokenResult)
deriving DecidableEq, Repr

/-- One atomic step of a single redemption process for code `c` redeemed
by `customer` with `redirect_uri`. -/
def redeemStep (customer : Customer) (c : String) (redirect_uri : Option String)
    (now accessExpiry refreshExpiry : Int) :
    RedeemPC → Cache → RedeemPC × Cache
  | .ready, cache => (.got (cacheGet cache ("oauth_code:" ++ c)), cache)
  | .got none, cache =>
      (.done (.err "invalid_grant" "Invalid or expired code"), cache)
  | .got (some d), cache =>
      if d.customer_id ≠ customer.name then
        (.done (.err "invalid_grant" "Code not issued to this client"), cache)
      else if some d.redirect_uri ≠ redirect_uri then
        (.done (.err "invalid_grant" "redirect_uri mismatch"), cache)
      else
        (.done (generate_tokens customer.name now accessExpiry refreshExpiry),
         cacheDelete cache ("oauth_code:" ++ c))
  | .done r, cache => (.done r, cache)

/-- Global state of several concurrent redemptions of the same code. -/
structure RedeemState where
  cache : Cache
  procs : List RedeemPC
deriving DecidableEq, Repr

/-- Let process `i` take one atomic step (no-op on a bad index). -/
def redeemSchedStep (customer : Customer) (c : String)
    (redirect_uri : Option String) (now accessExpiry refreshExpiry : Int)
    (s : RedeemState) (i : Nat) : RedeemState :=
  match s.procs[i]? with
  | none => s
  | some pc =>
    let r := redeemStep customer c redirect_uri now accessExpiry refreshExpiry
      pc s.cache
    { cache := r.2, procs := s.procs.set i r.1 }

/-- Run a whole schedule (list of process indices). -/
def redeemRun (customer : Customer) (c : String) (redirect_uri : Option String)
    (now accessExpiry refreshExpiry : Int) (s : RedeemState)
    (sched : List Nat) : RedeemState :=
  sched.foldl (redeemSchedStep customer c redirect_uri now accessExpiry refreshExpiry) s

/-! ### Usage Ledger data model (metrics.py, calls.py, messages.py,
daily_usage_metrics.py) -/

/-- A calendar date, ordered lexicographically. -/
structure CalDate where
  year : Int
  month : Int
  day : Int
deriving DecidableEq, Repr

/-- Lexicographic comparison of calendar dates (SQL `date <= date`). -/
def dateLe (a b : CalDate) : Bool :=
  a.year < b.year ∨
    (a.year = b.year ∧ (a.month < b.month ∨ (a.month = b.month ∧ a.day ≤ b.day)))

/-- A row of the Daily Usage Metrics doctype. -/
structure DailyRow where
  name : String
  customer : String
  row_date : CalDate
  total_calls : Int
  total_call_minutes : Rat
  total_messages : Int
  total_call_cost : Rat
  total_message_cost : Rat
  total_markup : Rat
  total_revenue : Rat
deriving DecidableEq, Repr

/-- Model of `frappe.db.get_value("Daily Usage Metrics", filters, "name")`:
name of the first row for the given customer and date, if any. -/
def findDailyRow (rows : List DailyRow) (customer_id : String) (d : CalDate) :
    Option String :=
  (rows.find? (fun r => r.customer == customer_id && r.row_date == d)).map
    (fun r => r.name)

/-- The `DailyUsageMetrics.validate` hook: clamp the three counters at
zero (costs are not clamped). -/
def dailyValidate (r : DailyRow) : DailyRow :=
  let r := if r.total_calls < 0 then { r with total_calls := 0 } else r
  let r := if r.total_messages < 0 then { r with total_messages := 0 } else r
  if r.total_call_minutes < 0 then { r with total_call_minutes := 0 } else r

/-- The `DailyUsageMetrics.before_save` hook: recompute `total_revenue`
as base cost plus markup. -/
def dailyBeforeSave (r : DailyRow) : DailyRow :=
  { r with total_revenue := r.total_call_cost + r.total_message_cost + r.total_markup }

/-- Name assigned by Frappe on insert (autoname; opaque and fresh). -/
def freshDailyName (rows : List DailyRow) : String :=
  "DUM-" ++ toString rows.length

/-- A `doc.insert()` on Daily Usage Metrics runs `validate` and
`before_save` and appends the row. -/
def ormInsertDaily (rows : List DailyRow) (r : DailyRow) : List DailyRow :=
  rows ++ [dailyBeforeSave (dailyValidate r)]

/-- Raw SQL update of the row named `n` (bypasses the document hooks,
exactly as `frappe.db.sql("UPDATE ...")` does). -/
def sqlUpdateDaily (rows : List DailyRow) (n : String) (f : DailyRow → DailyRow) :
    List DailyRow :=
  rows.map (fun r => if r.name == n then f r else r)

/-- The `UPDATE` statement of `report_usage` for `usage_type = "call"`:
increments calls, minutes and call cost only. -/
def reportCallIncrement (count : Int) (duration_minutes cost : Rat)
    (r : DailyRow) : DailyRow :=
  { r with
      total_calls := r.total_calls + count
      total_call_minutes := r.total_call_minutes + duration_minutes
      total_call_cost := r.total_call_cost + cost }

/-- The `UPDATE` statement of `report_usage` for `usage_type = "message"`:
increments messages and message cost only. -/
def reportMessageIncrement (count : Int) (cost : Rat) (r : DailyRow) : DailyRow :=
  { r with
      total_messages := r.total_messages + count
      total_message_cost := r.total_message_cost + cost }

/-- The new document inserted by `report_usage` for a call when no row
exists yet (markup and revenue are not in the dict and default to 0). -/
def reportCallInsertDoc (rows : List DailyRow) (customer_id : String)
    (today : CalDate) (count : Int) (duration_minutes cost : Rat) : DailyRow :=
  ⟨freshDailyName rows, customer_id, today, count, duration_minutes, 0, cost, 0, 0, 0⟩

/-- The new document inserted by `report_usage` for a message when no row
exists yet. -/
def reportMessageInsertDoc (rows : List DailyRow) (customer_id : String)
    (today : CalDate) (count : Int) (cost : Rat) : DailyRow :=
  ⟨freshDailyName rows, customer_id, today, 0, 0, count, 0, cost, 0, 0⟩

/-- Embedding of `metrics.report_usage` (run in isolation), acting on the
Daily Usage Metrics table: validate `usage_type`, look up the row for
(customer, today), then either increment it with one SQL statement or
insert a fresh document.  `none` models the `frappe.throw` on an invalid
`usage_type`. -/
def report_usage (rows : List DailyRow) (customer_id : String) (today : CalDate)
    (usage_type : String) (count : Int) (duration_minutes cost : Rat) :
    Option (List DailyRow) :=
  if usage_type ≠ "call" ∧ usage_type ≠ "message" then none
  else
    let existing := findDailyRow rows customer_id today
    if usage_type = "call" then
      match existing with
      | some n =>
          some (sqlUpdateDaily rows n (reportCallIncrement count duration_minutes cost))
      | none =>
          some (ormInsertDaily rows
            (reportCallInsertDoc rows customer_id today count duration_minutes cost))
    else
      match existing with
      | some n => some (sqlUpdateDaily rows n (reportMessageIncrement count cost))
      | none =>
          some (ormInsertDaily rows
            (reportMessageInsertDoc rows customer_id today count cost))

/-- Cost breakdown returned by `_calculate_call_cost`. -/
structure CostBreakdown where
  base_cost : Rat
  markup : Rat
  total_cost : Rat
deriving DecidableEq, Repr

/-- Round half to even (Python `round`) at the integers. -/
def roundHalfEven (q : Rat) : Int :=
  let f := ⌊q⌋
  let frac := q - f
  if frac < 1/2 then f
  else if 1/2 < frac then f + 1
  else if f % 2 = 0 then f else f + 1

/-- Python `round(x, 4)`. -/
def roundTo4 (q : Rat) : Rat :=
  (roundHalfEven (q * 10000) : Rat) / 10000

/-- Embedding of `calls._calculate_call_cost`: base cost at 0.03 per
minute, markup from the plan percentage (default 35%), all three values
rounded to 4 decimal places. -/
def calculate_call_cost (duration_seconds : Rat) (plan : Option Plan) :
    CostBreakdown :=
  let base_rate_per_minute : Rat := 3/100
  let duration_minutes := duration_seconds / 60
  let base_cost := duration_minutes * base_rate_per_minute
  let markup_percentage : Rat :=
    match plan with
    | some p => p.call_markup_percentage / 100
    | none => 35/100
  let markup := base_cost * markup_percentage
  let total_cost := base_cost + markup
  ⟨roundTo4 base_cost, roundTo4 markup, roundTo4 total_cost⟩

/-- The `UPDATE` statement of `calls._record_call_metric`: one call,
its minutes, and all three cost components including revenue. -/
def recordCallIncrement (duration_minutes : Rat) (cost : CostBreakdown)
    (r : DailyRow) : DailyRow :=
  { r with
      total_calls := r.total_calls + 1
      total_call_minutes := r.total_call_minutes + duration_minutes
      total_call_cost := r.total_call_cost + cost.base_cost
      total_markup := r.total_markup + cost.markup
      total_revenue := r.total_revenue + cost.total_cost }

/-- Embedding of `calls._record_call_metric` (run in isolation). -/
def record_call_metric (rows : List DailyRow) (customer_id : String)
    (today : CalDate) (duration_seconds : Rat) (cost : CostBreakdown) :
    List DailyRow :=
  let duration_minutes := duration_seconds / 60
  match findDailyRow rows customer_id today with
  | some n => sqlUpdateDaily rows n (recordCallIncrement duration_minutes cost)
  | none =>
      ormInsertDaily rows
        ⟨freshDailyName rows, customer_id, today, 1, duration_minutes, 0,
         cost.base_cost, 0, cost.markup, cost.total_cost⟩

/-- Embedding of `messages._record_message_metric` (run in isolation). -/
def record_message_metric (rows : List DailyRow) (customer_id : String)
    (today : CalDate) : List DailyRow :=
  match findDailyRow rows customer_id today with
  | some n =>
      sqlUpdateDaily rows n
        (fun r => { r with total_messages := r.total_messages + 1 })
  | none =>
      ormInsertDaily rows
        ⟨freshDailyName rows, customer_id, today, 0, 0, 1, 0, 0, 0, 0⟩

/-- The revenue invariant of a Daily Usage Row claimed by the spec:
`total_revenue = (total_call_cost + total_message_cost) + total_markup`. -/
def revenueInvariant (r : DailyRow) : Prop :=
  r.total_revenue = (r.total_call_cost + r.total_message_cost) + r.total_markup

instance (r : DailyRow) : Decidable (revenueInvariant r) := by
  unfold revenueInvariant; infer_instance

/-- Pointwise field order on daily rows: same key, every numeric field
non-decreasing. -/
def rowLe (a b : DailyRow) : Prop :=
  a.name = b.name ∧ a.customer = b.customer ∧ a.row_date = b.row_date ∧
  a.total_calls ≤ b.total_calls ∧ a.total_call_minutes ≤ b.total_call_minutes ∧
  a.total_messages ≤ b.total_messages ∧ a.total_call_cost ≤ b.total_call_cost ∧
  a.total_message_cost ≤ b.total_message_cost ∧ a.total_markup ≤ b.total_markup ∧
  a.total_revenue ≤ b.total_revenue

instance (a b : DailyRow) : Decidable (rowLe a b) := by
  unfold rowLe; infer_instance

/-- Each row present before a write is still present, at its position,
with every numeric field non-decreasing. -/
def tableLe (rows rowsB : List DailyRow) : Prop :=
  rows.length ≤ rowsB.length ∧
  ∀ (i : Nat) (r rB : DailyRow),
    rows[i]? = some r → rowsB[i]? = some rB → rowLe r rB

/-- Number of rows with key (customer, date). -/
def keyCount (rows : List DailyRow) (c : String) (d : CalDate) : Nat :=
  rows.countP (fun r => r.customer == c && r.row_date == d)

/-- At most one Daily Usage Row per (customer, date). -/
def atMostOne (rows : List DailyRow) (c : String) (d : CalDate) : Prop :=
  keyCount rows c d ≤ 1

/-! ### Interleaving semantics for concurrent `report_usage` calls

The source performs two database operations: the `get_value` existence
check and then either the single `UPDATE ... SET x = x + ...` statement
or the insert.  Each is one atomic step. -/

/-- Program counter of one in-flight `report_usage(message, count, cost)`
call. -/
inductive UsagePC where
  | ready
  | got (e : Option String)
  | finished
deriving DecidableEq, Repr

/-- Global state of several concurrent `report_usage` calls. -/
structure UsageState where
  rows : List DailyRow
  procs : List UsagePC
deriving DecidableEq, Repr

/-- The write step of `report_usage` with `usage_type = "message"`, given
the previously read lookup result `e`. -/
def usageWrite (customer_id : String) (today : CalDate) (count : Int)
    (cost : Rat) (e : Option String) (rows : List DailyRow) : List DailyRow :=
  match e with
  | some n => sqlUpdateDaily rows n (reportMessageIncrement count cost)
  | none =>
      ormInsertDaily rows (reportMessageInsertDoc rows customer_id today count cost)

/-- One atomic step of a single `report_usage("message", count, cost)`
process. -/
def usageStep (customer_id : String) (today : CalDate) (count : Int)
    (cost : Rat) : UsagePC → List DailyRow → UsagePC × List DailyRow
  | .ready, rows => (.got (findDailyRow rows customer_id today), rows)
  | .got e, rows => (.finished, usageWrite customer_id today count cost e rows)
  | .finished, rows => (.finished, rows)

/-- Let process `i` take one atomic step (no-op on a bad index). -/
def usageSchedStep (customer_id : String) (today : CalDate) (count : Int)
    (cost : Rat) (s : UsageState) (i : Nat) : UsageState :=
  match s.procs[i]? with
  | none => s
  | some pc =>
    let r := usageStep customer_id today count cost pc s.rows
    { rows := r.2, procs := s.procs.set i r.1 }

/-- Run a whole schedule (list of process indices). -/
def usageRun (customer_id : String) (today : CalDate) (count : Int) (cost : Rat)
    (s : UsageState) (sched : List Nat) : UsageState :=
  sched.foldl (usageSchedStep customer_id today count cost) s

/-! ### Balance status (metrics._get_balance_info) -/

/-- Alert entries appended by `_get_balance_info`; the formatted message
text is presentation and is modelled by the alert's `type` tag. -/
inductive AlertType where
  | quota_critical
  | quota_warning
deriving DecidableEq, Repr

/-- Return value of `_get_balance_info`. -/
structure BalanceInfo where
  balance : Rat
  total_usage : Rat
  quota_status : String
  alerts : List AlertType
deriving DecidableEq, Repr

/-- Threshold constant `USAGE_WARNING_THRESHOLD` (0.75) from
`constants.py`. -/
def USAGE_WARNING_THRESHOLD : Rat := 75/100

/-- Threshold constant `USAGE_ALERT_THRESHOLD` (0.90) from
`constants.py`. -/
def USAGE_ALERT_THRESHOLD : Rat := 90/100

/-- Embedding of `metrics._get_balance_info` after its two database
reads: `total_usage` is the month-to-date sum of `total_revenue` (`or
0`), `balance` the customer's `current_balance` (`or 0`).  The quota
ratio is computed only when the balance is positive; otherwise the
status stays `"ok"` with no alerts. -/
def get_balance_info (total_usage balance : Rat) : BalanceInfo :=
  if 0 < balance then
    let usage_ratio := total_usage / balance
    if USAGE_ALERT_THRESHOLD ≤ usage_ratio then
      ⟨balance, total_usage, "critical", [AlertType.quota_critical]⟩
    else if USAGE_WARNING_THRESHOLD ≤ usage_ratio then
      ⟨balance, total_usage, "warning", [AlertType.quota_warning]⟩
    else
      ⟨balance, total_usage, "ok", []⟩
  else
    ⟨balance, total_usage, "ok", []⟩

/-! ### Bearer authentication (metrics.py vs calls.py / messages.py) -/

/-- Embedding of `metrics._authenticate_request`: require a bearer
token and require `validate_token` to accept it.  `none` models the
`frappe.throw(..., AuthenticationError)` paths.  This version performs
NO tenant-status check. -/
def metrics_authenticate_request (db : List Customer) (now : Int)
    (bearer : Option Jwt) : Option TokenInfo :=
  match bearer with
  | none => none
  | some t => validate_token db now t

/-- Embedding of `calls._authenticate_request` (the version in
`messages.py` is identical): as the metrics version, then re-fetch the
customer document and reject with an authentication error unless its
status is `"Active"` (`CUSTOMER_STATUS_ACTIVE`). -/
def calls_authenticate_request (db : List Customer) (now : Int)
    (bearer : Option Jwt) : Option TokenInfo :=
  match bearer with
  | none => none
  | some t =>
    match validate_token db now t with
    | none => none
    | some info =>
      match getCustomer db info.customer_id with
      | none => none
      | some customer =>
        if customer.status ≠ "Active" then none else some info

/-- Number of concurrent `report_usage` processes whose write has landed. -/
def countFinished (procs : List UsagePC) : Nat :=
  procs.countP (fun p => p == UsagePC.finished)

/-- Every process has completed both of its steps. -/
def allFinished (procs : List UsagePC) : Prop :=
  ∀ p ∈ procs, p = UsagePC.finished

instance (procs : List UsagePC) : Decidable (allFinished procs) := by
  unfold allFinished; infer_instance

/-- The tracked row after `k` of the concurrent message increments have
landed. -/
def msgIncK (r0 : DailyRow) (count : Int) (cost : Rat) (k : Nat) : DailyRow :=
  { r0 with
      total_messages := r0.total_messages + k * count
      total_message_cost := r0.total_message_cost + k * cost }

/-! ### Monthly aggregation and invoicing (tasks.py,
monthly_usage_summary.py, customer_invoice.py) -/

/-- Leap-year rule of the proleptic Gregorian calendar (Python
`datetime.date`). -/
def isLeap (y : Int) : Bool :=
  (y % 4 == 0 && y % 100 != 0) || (y % 400 == 0)

/-- Days in a month of the Gregorian calendar. -/
def daysInMonth (y m : Int) : Int :=
  if m = 2 then (if isLeap y then 29 else 28)
  else if m = 4 ∨ m = 6 ∨ m = 9 ∨ m = 11 then 30
  else 31

/-- Python `some_date - timedelta(days=1)`. -/
def predDay (d : CalDate) : CalDate :=
  if 1 < d.day then ⟨d.year, d.month, d.day - 1⟩
  else if 1 < d.month then ⟨d.year, d.month - 1, daysInMonth d.year (d.month - 1)⟩
  else ⟨d.year - 1, 12, 31⟩

/-- Python `strftime("%Y-%m")` (zero-padded month). -/
def formatMonth (y m : Int) : String :=
  toString y ++ "-" ++ (if m < 10 then "0" ++ toString m else toString m)

/-- A row of the Monthly Usage Summary doctype (the fields the
aggregation and invoicing read or write). -/
structure MonthlySummary where
  name : String
  customer : String
  month : String
  total_calls : Int
  total_call_minutes : Rat
  total_messages : Int
  base_fee : Rat
  usage_charges : Rat
  total_amount : Rat
  invoice_generated : Bool
deriving DecidableEq, Repr

/-- Database state touched by `_aggregate_customer_metrics`. -/
structure AggState where
  daily : List DailyRow
  customers : List Customer
  plans : List Plan
  summaries : List MonthlySummary
deriving DecidableEq, Repr

/-- Model of `frappe.get_doc("Subscription Plan", pid)`. -/
def getPlan (plans : List Plan) (pid : String) : Option Plan :=
  plans.find? (fun p => p.name == pid)

/-- Name assigned by Frappe on inserting a summary (autoname; fresh). -/
def freshSummaryName (summaries : List MonthlySummary) : String :=
  "MUS-" ++ toString summaries.length

/-- First day of the aggregated month (`date(year, month_num, 1)`). -/
def monthStart (year mo : Int) : CalDate := ⟨year, mo, 1⟩

/-- Last day of the aggregated month, computed as in the source: first
day of the next month minus one day. -/
def monthEnd (year mo : Int) : CalDate :=
  if mo = 12 then predDay ⟨year + 1, 1, 1⟩ else predDay ⟨year, mo + 1, 1⟩

/-- The daily rows selected by the aggregation SQL: this customer, date
between month start and month end inclusive. -/
def dailyInMonth (daily : List DailyRow) (cid : String) (year mo : Int) :
    List DailyRow :=
  daily.filter (fun r =>
    r.customer == cid && dateLe (monthStart year mo) r.row_date &&
      dateLe r.row_date (monthEnd year mo))

/-- The four aggregated sums the aggregation writes (SQL `SUM` with the
`or 0` fallback; an empty selection sums to 0). -/
structure AggTotals where
  calls : Int
  minutes : Rat
  messages : Int
  revenue : Rat
deriving DecidableEq, Repr

/-- The aggregation SQL of `_aggregate_customer_metrics`. -/
def aggTotals (daily : List DailyRow) (cid : String) (year mo : Int) :
    AggTotals :=
  let rows := dailyInMonth daily cid year mo
  ⟨(rows.map (fun r => r.total_calls)).sum,
   (rows.map (fun r => r.total_call_minutes)).sum,
   (rows.map (fun r => r.total_messages)).sum,
   (rows.map (fun r => r.total_revenue)).sum⟩

/-- Base fee resolution of `_aggregate_customer_metrics`:
`frappe.get_doc` on the customer (raises when missing, modelled as
`none`), then the linked plan's `base_monthly_fee or 0`, 0 when no plan
is linked. -/
def baseFeeOf (customers : List Customer) (plans : List Plan) (cid : String) :
    Option Rat :=
  match getCustomer customers cid with
  | none => none
  | some customer =>
    match customer.subscription_plan with
    | none => some 0
    | some pid => (getPlan plans pid).map (fun p => p.base_monthly_fee)

/-- The six fields written into a summary by the aggregation
(`db.set_value` on the update path, the inserted document on the insert
path): the four aggregates, the base fee, `usage_charges` = aggregated
revenue and `total_amount = base_fee + usage_charges`.  The
`invoice_generated` flag is never among them. -/
def applySummaryValues (t : AggTotals) (base_fee : Rat) (x : MonthlySummary) :
    MonthlySummary :=
  { x with
      total_calls := t.calls
      total_call_minutes := t.minutes
      total_messages := t.messages
      base_fee := base_fee
      usage_charges := t.revenue
      total_amount := base_fee + t.revenue }

/-- Model of the `frappe.db.get_value("Monthly Usage Summary", ...)`
lookup by (customer, month). -/
def findSummary (summaries : List MonthlySummary) (cid month_str : String) :
    Option MonthlySummary :=
  summaries.find? (fun x => x.customer == cid && x.month == month_str)

/-- Embedding of `tasks._aggregate_customer_metrics` for one customer
and month (the source receives the month as "YYYY-MM" and splits it;
here year and month number arrive split, and `formatMonth` rebuilds the
string used for the summary lookup and insert).  `none` models the
exceptions `frappe.get_doc` raises when the customer or its linked plan
is missing.  On update, `db.set_value` writes the six recomputed fields
raw; on insert, the document passes `MonthlySummary.validate` (month
format, satisfied by `strftime`) and `before_save` (recomputes
`total_amount = base_fee + usage_charges`, equal to the inserted
value), with `invoice_generated = 0`. -/
def aggregate_customer_metrics (s : AggState) (cid : String) (year mo : Int) :
    Option AggState :=
  match baseFeeOf s.customers s.plans cid with
  | none => none
  | some base_fee =>
    let t := aggTotals s.daily cid year mo
    let month_str := formatMonth year mo
    match (findSummary s.summaries cid month_str).map (fun x => x.name) with
    | some n =>
      some { s with summaries := s.summaries.map (fun x =>
        if x.name == n then applySummaryValues t base_fee x else x) }
    | none =>
      some { s with summaries := s.summaries ++
        [applySummaryValues t base_fee
          ⟨freshSummaryName s.summaries, cid, month_str, 0, 0, 0, 0, 0, 0,
           false⟩] }

/-- A row of the Customer Invoice doctype. -/
structure Invoice where
  customer : String
  invoice_period_start : CalDate
  invoice_period_end : CalDate
  base_fee : Rat
  call_charges : Rat
  message_charges : Rat
  total_calls : Int
  total_messages : Int
  total_amount : Rat
  invoice_status : String
deriving DecidableEq, Repr

/-- The `CustomerInvoice.before_save` hook: recompute `total_amount`
from base fee plus call and message charges. -/
def invoiceBeforeSave (inv : Invoice) : Invoice :=
  { inv with
      total_amount := inv.base_fee + inv.call_charges + inv.message_charges }

/-- Database state touched by `generate_monthly_invoices`. -/
structure InvoiceState where
  summaries : List MonthlySummary
  invoices : List Invoice
deriving DecidableEq, Repr

/-- The invoice document built and inserted by
`_generate_customer_invoice`, after the `before_save` hook
(`CustomerInvoice.validate` passes: the period end is within the start
month and the status is Draft, not Paid). -/
def mkInvoice (summary : MonthlySummary) (month_date : CalDate) : Invoice :=
  let period_end :=
    if month_date.month = 12 then predDay ⟨month_date.year + 1, 1, 1⟩
    else predDay ⟨month_date.year, month_date.month + 1, 1⟩
  invoiceBeforeSave
    ⟨summary.customer, month_date, period_end, summary.base_fee, 0, 0,
     summary.total_calls, summary.total_messages, summary.total_amount,
     "Draft"⟩

/-- Embedding of `tasks._generate_customer_invoice`: insert the invoice,
then `db.set_value` `invoice_generated = 1` on the summary (the emailed
notification is external and best-effort; its failure is caught). -/
def generate_customer_invoice (st : InvoiceState) (summary : MonthlySummary)
    (month_date : CalDate) : InvoiceState :=
  { summaries := st.summaries.map (fun x =>
      if x.name == summary.name then { x with invoice_generated := true } else x)
    invoices := st.invoices ++ [mkInvoice summary month_date] }

/-- First day of the month preceding `today`'s month, as computed at the
top of `generate_monthly_invoices`. -/
def prevMonthOf (today : CalDate) : CalDate :=
  if today.month = 1 then ⟨today.year - 1, 12, 1⟩
  else ⟨today.year, today.month - 1, 1⟩

/-- The `frappe.get_all` selection of `generate_monthly_invoices`:
summaries of the previous month with `invoice_generated = 0`, fetched
once before the loop. -/
def invoiceSelection (summaries : List MonthlySummary) (today : CalDate) :
    List MonthlySummary :=
  summaries.filter (fun x =>
    x.month == formatMonth (prevMonthOf today).year (prevMonthOf today).month &&
      !x.invoice_generated)

/-- Embedding of `tasks.generate_monthly_invoices`: invoice every
selected summary in order. -/
def generate_monthly_invoices (st : InvoiceState) (today : CalDate) :
    InvoiceState :=
  (invoiceSelection st.summaries today).foldl
    (fun acc summary => generate_customer_invoice acc summary (prevMonthOf today))
    st

/-- Flag every summary whose name occurs in `names` as invoiced (the
cumulative effect of the invoicing loop on the summaries table). -/
def flagIfIn (names : List String) (x : MonthlySummary) : MonthlySummary :=
  if names.contains x.name then { x with invoice_generated := true } else x

/-! ### Claims C1 and C3 -/

/-- C1 — authorization-code single use: the claim demands that of two
racing redemptions of one minted code, never both succeed.  The source
performs `get_value` and `delete_value` as two separate cache operations
with only local checks in between, so under the interleaving in which
both processes read before either deletes, BOTH redemptions return a
fresh token pair.  This theorem evaluates the embedded code at that
failing input: a code minted by `authorize()` for customer `CUST-001`,
two redemptions with matching client and redirect URI, schedule
read/read/finish/finish.  Both processes end in `done (success ...)`.
The last two conjuncts record that the sequential behaviour matches the
claim: a first isolated redemption succeeds and deletes the code, and a
second one then fails with `invalid_grant`. -/
theorem c1_code_replay_race_eval :
    (redeemRun ⟨"CUST-001", "Active", "https://tenant.example.com", 0, none⟩
        "abc" (some "https://tenant.example.com/cb") 0 3600 2592000
        ⟨authorizeStore [] "abc" "CUST-001" "https://tenant.example.com/cb" 0,
         [.ready, .ready]⟩
        [0, 1, 0, 1]).procs =
      [.done (generate_tokens "CUST-001" 0 3600 2592000),
       .done (generate_tokens "CUST-001" 0 3600 2592000)] ∧
    handle_authorization_code_grant
        (authorizeStore [] "abc" "CUST-001" "https://tenant.example.com/cb" 0)
        ⟨"CUST-001", "Active", "https://tenant.example.com", 0, none⟩
        (some "abc") (some "https://tenant.example.com/cb") 0 3600 2592000 =
      (generate_tokens "CUST-001" 0 3600 2592000, []) ∧
    handle_authorization_code_grant []
        ⟨"CUST-001", "Active", "https://tenant.example.com", 0, none⟩
        (some "abc") (some "https://tenant.example.com/cb") 0 3600 2592000 =
      (.err "invalid_grant" "Invalid or expired code", []) := by
  decide

/-- C3 — token kind separation: any well-signed token whose `type` claim
is `"refresh"` is rejected by `validate_token` (which accepts only
`"access"`), and any well-signed token whose `type` claim is `"access"`
is rejected by the refresh-token grant path with error `invalid_grant`,
for every customer database, current time, authenticated client and TTL
configuration. -/
theorem c3_token_kind_separation (db : List Customer) (now : Int)
    (p : JwtPayload) (customer : Customer) (accessExpiry refreshExpiry : Int) :
    (p.kind = "refresh" → validate_token db now (.signed p) = none) ∧
    (p.kind = "access" →
      (handle_refresh_token_grant customer (some (.signed p)) now
          accessExpiry refreshExpiry).errorCode = some "invalid_grant") := by
  constructor
  · intro hk
    unfold validate_token jwtDecode
    by_cases hexp : p.exp ≤ now
    · simp [hexp]
    · simp [hexp, hk]
  · intro hk
    unfold handle_refresh_token_grant jwtDecode
    by_cases hexp : p.exp ≤ now
    · simp [hexp, TokenResult.errorCode]
    · simp only [hexp, if_false]
      by_cases hcust : p.customer_id = customer.name
      · simp [hcust, hk, TokenResult.errorCode]
      · simp [hcust, TokenResult.errorCode]

/-- C3 witness: the separation applied to a concrete refresh token and a
concrete access token for customer `CUST-001`. -/
theorem c3_token_kind_separation_witness :
    validate_token [⟨"CUST-001", "Active", "https://tenant.example.com", 0, none⟩]
        0 (.signed ⟨"CUST-001", "refresh", 100⟩) = none ∧
    (handle_refresh_token_grant
        ⟨"CUST-001", "Active", "https://tenant.example.com", 0, none⟩
        (some (.signed ⟨"CUST-001", "access", 100⟩)) 0 3600
        2592000).errorCode = some "invalid_grant" := by
  exact ⟨(c3_token_kind_separation
            [⟨"CUST-001", "Active", "https://tenant.example.com", 0, none⟩]
            0 ⟨"CUST-001", "refresh", 100⟩
            ⟨"CUST-001", "Active", "https://tenant.example.com", 0, none⟩
            3600 2592000).1 rfl,
         (c3_token_kind_separation
            [⟨"CUST-001", "Active", "https://tenant.example.com", 0, none⟩]
            0 ⟨"CUST-001", "access", 100⟩
            ⟨"CUST-001", "Active", "https://tenant.example.com", 0, none⟩
            3600 2592000).2 rfl⟩

/-- C4 — revenue recomputation: the claim says every write path leaves
`total_revenue = (total_call_cost + total_message_cost) + total_markup`.
The increment paths of `report_usage` are raw SQL updates that bypass the
`before_save` hook and never touch `total_revenue` or `total_markup`.
Failing input: an existing all-zero row for (CUST-001, 2025-01-15) and a
`report_usage` call with `usage_type = "call"`, count 1, 1 minute, cost
5.  The write leaves the row with `total_call_cost = 5` but
`total_revenue = 0`, violating the invariant the claim states. -/
theorem c4_revenue_invariant_broken_eval :
    report_usage [⟨"DUM-0", "CUST-001", ⟨2025, 1, 15⟩, 0, 0, 0, 0, 0, 0, 0⟩]
        "CUST-001" ⟨2025, 1, 15⟩ "call" 1 1 5 =
      some [⟨"DUM-0", "CUST-001", ⟨2025, 1, 15⟩, 1, 1, 0, 5, 0, 0, 0⟩] ∧
    ¬ revenueInvariant ⟨"DUM-0", "CUST-001", ⟨2025, 1, 15⟩, 1, 1, 0, 5, 0, 0, 0⟩ := by
  norm_num [report_usage, findDailyRow, List.find?, sqlUpdateDaily,
    reportCallIncrement, revenueInvariant]

/-- C6 — counterexample: `report_usage` validates only `usage_type`, so
a negative `count` is accepted and decreases a counter.  With an
existing row holding `total_messages = 5`, the call
`report_usage("message", count = -3)` leaves `total_messages = 2`, so
the numeric fields are not monotonically non-decreasing for all inputs
the operation accepts, contrary to the claim. -/
theorem c6_negative_count_decreases_counterexample :
    report_usage [⟨"DUM-0", "CUST-001", ⟨2025, 1, 15⟩, 0, 0, 5, 0, 0, 0, 0⟩]
        "CUST-001" ⟨2025, 1, 15⟩ "message" (-3) 0 0 =
      some [⟨"DUM-0", "CUST-001", ⟨2025, 1, 15⟩, 0, 0, 2, 0, 0, 0, 0⟩] ∧
    ¬ rowLe ⟨"DUM-0", "CUST-001", ⟨2025, 1, 15⟩, 0, 0, 5, 0, 0, 0, 0⟩
        ⟨"DUM-0", "CUST-001", ⟨2025, 1, 15⟩, 0, 0, 2, 0, 0, 0, 0⟩ := by
  norm_num [report_usage, findDailyRow, List.find?, sqlUpdateDaily,
    reportMessageIncrement, rowLe]
  exact fun h => absurd h (by decide)

/-! ### Helper lemmas for the interleaving proofs -/

/-- Setting position `i` of a list changes a `countP` by swapping the
contribution of the old element for that of the new one. -/
theorem countP_set_add {α : Type} (p : α → Bool) (l : List α) (i : Nat)
    (a b : α) (h : l[i]? = some a) :
    (l.set i b).countP p + (if p a then 1 else 0) =
      l.countP p + (if p b then 1 else 0) := by
  induction l generalizing i with
  | nil => simp at h
  | cons x xs ih =>
    cases i with
    | zero =>
      simp only [List.getElem?_cons_zero, Option.some.injEq] at h
      subst h
      simp only [List.set_cons_zero, List.countP_cons]
      omega
    | succ j =>
      simp only [List.getElem?_cons_succ] at h
      have := ih j h
      simp only [List.set_cons_succ, List.countP_cons]
      omega

/-- Looking up the tracked row in the one-row table always returns its
name. -/
theorem findDailyRow_msgIncK (r0 : DailyRow) (count : Int) (cost : Rat)
    (k : Nat) (customer_id : String) (today : CalDate)
    (hcust : r0.customer = customer_id) (hdate : r0.row_date = today) :
    findDailyRow [msgIncK r0 count cost k] customer_id today = some r0.name := by
  simp [findDailyRow, msgIncK, List.find?, hcust.symm, hdate.symm]

/-- The atomic message-increment statement advances the tracked row by
one landed increment. -/
theorem sqlUpdateDaily_msgIncK (r0 : DailyRow) (count : Int) (cost : Rat)
    (k : Nat) :
    sqlUpdateDaily [msgIncK r0 count cost k] r0.name
        (reportMessageIncrement count cost) =
      [msgIncK r0 count cost (k + 1)] := by
  simp only [sqlUpdateDaily, List.map_cons, List.map_nil, msgIncK,
    reportMessageIncrement]
  push_cast
  norm_num
  constructor <;> ring

/-- One scheduler step preserves the concurrency invariant: the table is
exactly the tracked row with all landed increments applied, and every
process is untouched, holds the tracked row's name, or is finished. -/
theorem usageSchedStep_inv (customer_id : String) (today : CalDate)
    (count : Int) (cost : Rat) (r0 : DailyRow)
    (hcust : r0.customer = customer_id) (hdate : r0.row_date = today)
    (s : UsageState) (i : Nat)
    (h1 : s.rows = [msgIncK r0 count cost (countFinished s.procs)])
    (h2 : ∀ p ∈ s.procs,
      p = UsagePC.ready ∨ p = UsagePC.got (some r0.name) ∨ p = UsagePC.finished) :
    (usageSchedStep customer_id today count cost s i).rows =
      [msgIncK r0 count cost
        (countFinished (usageSchedStep customer_id today count cost s i).procs)] ∧
    ∀ p ∈ (usageSchedStep customer_id today count cost s i).procs,
      p = UsagePC.ready ∨ p = UsagePC.got (some r0.name) ∨ p = UsagePC.finished := by
  unfold usageSchedStep
  cases hget : s.procs[i]? with
  | none => exact ⟨h1, h2⟩
  | some pc =>
    have hmem := List.getElem?_mem hget
    rcases h2 pc hmem with hpc | hpc | hpc <;> subst hpc
    · -- read step: no write, count of finished unchanged
      have hfind : findDailyRow s.rows customer_id today = some r0.name := by
        rw [h1]
        exact findDailyRow_msgIncK r0 count cost _ customer_id today hcust hdate
      have hcnt := countP_set_add (fun p => p == UsagePC.finished) s.procs i
        UsagePC.ready (UsagePC.got (findDailyRow s.rows customer_id today)) hget
      have hcf : countFinished
          (s.procs.set i (UsagePC.got (findDailyRow s.rows customer_id today))) =
          countFinished s.procs := by
        unfold countFinished
        simpa using hcnt
      simp only [usageStep]
      constructor
      · rw [hcf]; exact h1
      · intro p hp
        rcases List.mem_or_eq_of_mem_set hp with h | h
        · exact h2 p h
        · rw [h, hfind]
          right; left; rfl
    · -- write step: the single UPDATE statement lands one increment
      have hcnt := countP_set_add (fun p => p == UsagePC.finished) s.procs i
        (UsagePC.got (some r0.name)) UsagePC.finished hget
      simp only [usageStep, usageWrite]
      constructor
      · rw [h1, sqlUpdateDaily_msgIncK]
        have : countFinished (s.procs.set i UsagePC.finished) =
            countFinished s.procs + 1 := by
          unfold countFinished
          simpa using hcnt
        rw [this]
      · intro p hp
        rcases List.mem_or_eq_of_mem_set hp with h | h
        · exact h2 p h
        · rw [h]; right; right; rfl
    · -- already finished: nothing changes
      have hcnt := countP_set_add (fun p => p == UsagePC.finished) s.procs i
        UsagePC.finished UsagePC.finished hget
      simp only [usageStep]
      constructor
      · rw [h1]
        have : countFinished (s.procs.set i UsagePC.finished) =
            countFinished s.procs := by
          unfold countFinished
          omega
        rw [this]
      · intro p hp
        rcases List.mem_or_eq_of_mem_set hp with h | h
        · exact h2 p h
        · rw [h]; right; right; rfl

/-- The invariant is preserved by any whole schedule. -/
theorem usageRun_inv (customer_id : String) (today : CalDate)
    (count : Int) (cost : Rat) (r0 : DailyRow)
    (hcust : r0.customer = customer_id) (hdate : r0.row_date = today)
    (sched : List Nat) :
    ∀ s : UsageState,
      s.rows = [msgIncK r0 count cost (countFinished s.procs)] →
      (∀ p ∈ s.procs,
        p = UsagePC.ready ∨ p = UsagePC.got (some r0.name) ∨ p = UsagePC.finished) →
      (usageRun customer_id today count cost s sched).rows =
        [msgIncK r0 count cost
          (countFinished (usageRun customer_id today count cost s sched).procs)] ∧
      ∀ p ∈ (usageRun customer_id today count cost s sched).procs,
        p = UsagePC.ready ∨ p = UsagePC.got (some r0.name) ∨ p = UsagePC.finished := by
  induction sched with
  | nil => intro s h1 h2; exact ⟨h1, h2⟩
  | cons i rest ih =>
    intro s h1 h2
    have step := usageSchedStep_inv customer_id today count cost r0 hcust hdate
      s i h1 h2
    exact ih _ step.1 step.2

/-- A schedule never changes how many processes there are. -/
theorem usageRun_length (customer_id : String) (today : CalDate)
    (count : Int) (cost : Rat) (sched : List Nat) :
    ∀ s : UsageState,
      (usageRun customer_id today count cost s sched).procs.length =
        s.procs.length := by
  induction sched with
  | nil => intro s; rfl
  | cons i rest ih =>
    intro s
    rw [usageRun, List.foldl_cons, ← usageRun]
    rw [ih]
    unfold usageSchedStep
    cases hget : s.procs[i]? with
    | none => rfl
    | some pc => simp

/-- C2 — counterexample: the claim promises that N concurrent
`report_usage("message", 1)` calls always leave THE Daily Usage Row for
(tenant, date) with `total_messages = N`.  The existence check and the
insert are two separate database operations, so when no row exists yet
the interleaving read/read/insert/insert makes both processes insert:
the final table holds two rows for (CUST-001, 2025-01-15) with one
message each, and no single row carries both increments. -/
theorem c2_concurrent_insert_race_counterexample :
    usageRun "CUST-001" ⟨2025, 1, 15⟩ 1 (1/200)
        ⟨[], [UsagePC.ready, UsagePC.ready]⟩ [0, 1, 0, 1] =
      ⟨[⟨"DUM-0", "CUST-001", ⟨2025, 1, 15⟩, 0, 0, 1, 0, 1/200, 0, 1/200⟩,
        ⟨"DUM-1", "CUST-001", ⟨2025, 1, 15⟩, 0, 0, 1, 0, 1/200, 0, 1/200⟩],
       [UsagePC.finished, UsagePC.finished]⟩ ∧
    ¬ atMostOne
        [⟨"DUM-0", "CUST-001", ⟨2025, 1, 15⟩, 0, 0, 1, 0, 1/200, 0, 1/200⟩,
         ⟨"DUM-1", "CUST-001", ⟨2025, 1, 15⟩, 0, 0, 1, 0, 1/200, 0, 1/200⟩]
        "CUST-001" ⟨2025, 1, 15⟩ := by
  constructor
  · norm_num [usageRun, usageSchedStep, usageStep, usageWrite, findDailyRow,
      ormInsertDaily, dailyValidate, dailyBeforeSave, reportMessageInsertDoc,
      freshDailyName, List.find?]
    constructor <;> rfl
  · norm_num [atMostOne, keyCount, List.countP, List.countP.go]

/-- C2 (amended) — no lost increments on an existing row: when the Daily
Usage Row for (tenant, date) already exists, every interleaving of N
concurrent `report_usage("message", count, cost)` calls that runs all
processes to completion leaves exactly that one row, with
`total_messages` increased by N·count and `total_message_cost` by
N·cost — the increment itself is a single atomic SQL statement, so no
concurrent increment is lost.  (The claim as stated also covers the
row-creation race, which fails; see the counterexample.) -/
theorem c2_no_lost_increments_on_existing_row
    (customer_id : String) (today : CalDate) (count : Int) (cost : Rat)
    (r0 : DailyRow) (hcust : r0.customer = customer_id)
    (hdate : r0.row_date = today) (n : Nat) (sched : List Nat)
    (hdone : allFinished
      (usageRun customer_id today count cost
        ⟨[r0], List.replicate n UsagePC.ready⟩ sched).procs) :
    (usageRun customer_id today count cost
        ⟨[r0], List.replicate n UsagePC.ready⟩ sched).rows =
      [{ r0 with
          total_messages := r0.total_messages + n * count
          total_message_cost := r0.total_message_cost + n * cost }] := by
  have hcf0 : countFinished (List.replicate n UsagePC.ready) = 0 := by
    unfold countFinished
    rw [List.countP_eq_zero]
    intro a ha
    rw [(List.mem_replicate.mp ha).2]
    simp
  have h0rows : ([r0] : List DailyRow) =
      [msgIncK r0 count cost (countFinished (List.replicate n UsagePC.ready))] := by
    rw [hcf0]
    cases r0
    simp [msgIncK]
  have h2 : ∀ p ∈ List.replicate n UsagePC.ready,
      p = UsagePC.ready ∨ p = UsagePC.got (some r0.name) ∨ p = UsagePC.finished :=
    fun p hp => Or.inl (List.mem_replicate.mp hp).2
  have hinv := usageRun_inv customer_id today count cost r0 hcust hdate sched
    ⟨[r0], List.replicate n UsagePC.ready⟩ h0rows h2
  have hlen := usageRun_length customer_id today count cost sched
    ⟨[r0], List.replicate n UsagePC.ready⟩
  have hcf : countFinished
      (usageRun customer_id today count cost
        ⟨[r0], List.replicate n UsagePC.ready⟩ sched).procs = n := by
    unfold countFinished
    rw [List.countP_eq_length.mpr (fun q hq => by rw [hdone q hq]; simp), hlen]
    simp
  rw [hinv.1, hcf]
  rfl

/-- C2 witness: two concurrent message reports of one message each, on a
day that already has a (zeroed) row, under the complete schedule
read/write/read/write, leave the single row with two messages. -/
theorem c2_no_lost_increments_witness :
    (usageRun "CUST-001" ⟨2025, 1, 15⟩ 1 (1/200)
        ⟨[⟨"DUM-0", "CUST-001", ⟨2025, 1, 15⟩, 0, 0, 0, 0, 0, 0, 0⟩],
         List.replicate 2 UsagePC.ready⟩ [0, 0, 1, 1]).rows =
      [⟨"DUM-0", "CUST-001", ⟨2025, 1, 15⟩, 0, 0, 2, 0, 1/100, 0, 0⟩] := by
  have h := c2_no_lost_increments_on_existing_row "CUST-001" ⟨2025, 1, 15⟩
    1 (1/200) ⟨"DUM-0", "CUST-001", ⟨2025, 1, 15⟩, 0, 0, 0, 0, 0, 0, 0⟩
    rfl rfl 2 [0, 0, 1, 1]
    (by norm_num [allFinished, usageRun, usageSchedStep, usageStep, usageWrite,
      findDailyRow, sqlUpdateDaily, reportMessageIncrement, List.find?,
      List.replicate])
  rw [h]
  norm_num

/-- C5 — counterexample: the claim says every bearer-authenticated
operation, including the metrics endpoints, rejects a valid unexpired
token whenever the tenant is not Active.  With customer `CUST-001`
Suspended and a valid unexpired access token, the metrics
authentication accepts the request (it checks only token validity and
tenant existence), while the calls/messages authentication rejects it. -/
theorem c5_metrics_suspended_accepted_counterexample :
    metrics_authenticate_request
        [⟨"CUST-001", "Suspended", "https://tenant.example.com", 0, none⟩] 0
        (some (.signed ⟨"CUST-001", "access", 100⟩)) =
      some ⟨"CUST-001", 100⟩ ∧
    calls_authenticate_request
        [⟨"CUST-001", "Suspended", "https://tenant.example.com", 0, none⟩] 0
        (some (.signed ⟨"CUST-001", "access", 100⟩)) = none := by
  constructor
  · norm_num [metrics_authenticate_request, validate_token, jwtDecode,
      customerExists, List.any]
  · norm_num [calls_authenticate_request, validate_token, jwtDecode,
      customerExists, getCustomer, List.any, List.find?]
    exact fun h => absurd h (by decide)

/-- C5 (amended) — tenant status is re-fetched and re-checked on every
request by the call and message proxy endpoints, so a valid unexpired
token for a non-Active tenant is rejected there; the metrics endpoints
re-check only token validity and tenant existence, so the same token is
accepted there. -/
theorem c5_status_recheck_amended (db : List Customer) (now : Int)
    (p : JwtPayload) (customer : Customer)
    (hfind : getCustomer db p.customer_id = some customer)
    (hstatus : customer.status ≠ "Active") :
    calls_authenticate_request db now (some (.signed p)) = none ∧
    (p.kind = "access" → now < p.exp →
      metrics_authenticate_request db now (some (.signed p)) =
        some ⟨p.customer_id, p.exp⟩) := by
  have hfind2 : db.find? (fun c => c.name == p.customer_id) = some customer := hfind
  have hex : customerExists db p.customer_id = true := by
    unfold customerExists
    rw [List.any_eq_true]
    have hp := List.find?_some hfind2
    have hm := List.mem_of_find?_eq_some hfind2
    exact ⟨customer, hm, hp⟩
  constructor
  · unfold calls_authenticate_request validate_token jwtDecode
    by_cases hexp : p.exp ≤ now
    · simp [hexp]
    · by_cases hk : p.kind = "access"
      · simp only [hexp, if_false, hk]
        simp only [ne_eq, not_true_eq_false, if_false, hex,
          Bool.not_true, not_false_eq_true, if_true]
        rw [hfind]
        simp [hstatus]
      · simp [hexp, hk]
  · intro hk hexp
    unfold metrics_authenticate_request validate_token jwtDecode
    have hexp2 : ¬ p.exp ≤ now := by omega
    simp [hexp2, hk, hex]

/-- C5 witness: the amended statement at a concrete Suspended customer
and a concrete valid access token. -/
theorem c5_status_recheck_witness :
    calls_authenticate_request
        [⟨"CUST-001", "Suspended", "https://tenant.example.com", 0, none⟩] 0
        (some (.signed ⟨"CUST-001", "access", 100⟩)) = none ∧
    metrics_authenticate_request
        [⟨"CUST-001", "Suspended", "https://tenant.example.com", 0, none⟩] 0
        (some (.signed ⟨"CUST-001", "access", 100⟩)) =
      some ⟨"CUST-001", 100⟩ := by
  have h := c5_status_recheck_amended
    [⟨"CUST-001", "Suspended", "https://tenant.example.com", 0, none⟩] 0
    ⟨"CUST-001", "access", 100⟩
    ⟨"CUST-001", "Suspended", "https://tenant.example.com", 0, none⟩
    (by norm_num [getCustomer, List.find?]) (by decide)
  exact ⟨h.1, h.2 rfl (by decide)⟩

/-- C7 — call cost: `_calculate_call_cost` is a pure function (hence
deterministic); its components obey `base_cost = (duration/60) * 0.03`,
`markup = base_cost * (plan markup / 100 if plan else 0.35)` and
`total_cost = base_cost + markup`, each rounded to 4 decimal places;
and at 120 seconds with a 30% plan markup it returns 0.0600, 0.0180,
0.0780. -/
theorem c7_call_cost_formula :
    (∀ (d : Rat) (p : Plan),
      calculate_call_cost d (some p) =
        ⟨roundTo4 (d / 60 * (3/100)),
         roundTo4 (d / 60 * (3/100) * (p.call_markup_percentage / 100)),
         roundTo4 (d / 60 * (3/100) +
           d / 60 * (3/100) * (p.call_markup_percentage / 100))⟩) ∧
    (∀ d : Rat,
      calculate_call_cost d none =
        ⟨roundTo4 (d / 60 * (3/100)),
         roundTo4 (d / 60 * (3/100) * (35/100)),
         roundTo4 (d / 60 * (3/100) + d / 60 * (3/100) * (35/100))⟩) ∧
    calculate_call_cost 120 (some ⟨"Plan30", 29, 30, 30⟩) =
      ⟨6/100, 18/1000, 78/1000⟩ := by
  refine ⟨fun d p => rfl, fun d => rfl, ?_⟩
  norm_num [calculate_call_cost, roundTo4, roundHalfEven]

/-- C8 — quota thresholds: the balance status is `"critical"` with a
critical alert exactly when the balance is positive and the
month-to-date usage ratio is at least 0.90, `"warning"` with a warning
alert exactly when the ratio is in [0.75, 0.90), and `"ok"` with no
alerts otherwise; a zero balance yields `"ok"` regardless of usage.
Concretely, usage 91/80/50 of balance 100 gives critical/warning/ok. -/
theorem c8_quota_thresholds (total_usage balance : Rat) :
    (get_balance_info total_usage balance =
        ⟨balance, total_usage, "critical", [AlertType.quota_critical]⟩ ↔
      0 < balance ∧ 9/10 ≤ total_usage / balance) ∧
    (get_balance_info total_usage balance =
        ⟨balance, total_usage, "warning", [AlertType.quota_warning]⟩ ↔
      0 < balance ∧ 3/4 ≤ total_usage / balance ∧ total_usage / balance < 9/10) ∧
    (get_balance_info total_usage balance =
        ⟨balance, total_usage, "ok", []⟩ ↔
      ¬ (0 < balance ∧ 3/4 ≤ total_usage / balance)) ∧
    get_balance_info total_usage 0 = ⟨0, total_usage, "ok", []⟩ ∧
    get_balance_info 91 100 = ⟨100, 91, "critical", [AlertType.quota_critical]⟩ ∧
    get_balance_info 80 100 = ⟨100, 80, "warning", [AlertType.quota_warning]⟩ ∧
    get_balance_info 50 100 = ⟨100, 50, "ok", []⟩ := by
  refine ⟨?_, ?_, ?_, ?_, ?_, ?_, ?_⟩
  · simp only [get_balance_info, USAGE_ALERT_THRESHOLD, USAGE_WARNING_THRESHOLD]
    split_ifs with hb hc hw
    · simp only [BalanceInfo.mk.injEq, and_self, and_true, true_and]
      constructor
      · intro _; exact ⟨hb, by linarith⟩
      · intro _; simp
    · simp only [BalanceInfo.mk.injEq]
      constructor
      · intro h; exact absurd h.2.2.1 (by decide)
      · intro h
        exact absurd (by linarith [h.2] : (90:Rat)/100 ≤ total_usage / balance) hc
    · simp only [BalanceInfo.mk.injEq]
      constructor
      · intro h; exact absurd h.2.2.1 (by decide)
      · intro h
        exact absurd (by linarith [h.2] : (90:Rat)/100 ≤ total_usage / balance) hc
    · simp only [BalanceInfo.mk.injEq]
      constructor
      · intro h; exact absurd h.2.2.1 (by decide)
      · intro h; exact absurd h.1 hb
  · simp only [get_balance_info, USAGE_ALERT_THRESHOLD, USAGE_WARNING_THRESHOLD]
    split_ifs with hb hc hw
    · simp only [BalanceInfo.mk.injEq]
      constructor
      · intro h; exact absurd h.2.2.1 (by decide)
      · intro h; exact absurd (by linarith [h.2.2] : ¬ (90:Rat)/100 ≤ total_usage / balance) (not_not.mpr hc)
    · simp only [BalanceInfo.mk.injEq, and_self, and_true, true_and]
      constructor
      · intro _; exact ⟨hb, by linarith, by linarith [not_le.mp hc]⟩
      · intro _; simp
    · simp only [BalanceInfo.mk.injEq]
      constructor
      · intro h; exact absurd h.2.2.1 (by decide)
      · intro h
        exact absurd (by linarith [h.2.1] : (75:Rat)/100 ≤ total_usage / balance) hw
    · simp only [BalanceInfo.mk.injEq]
      constructor
      · intro h; exact absurd h.2.2.1 (by decide)
      · intro h; exact absurd h.1 hb
  · simp only [get_balance_info, USAGE_ALERT_THRESHOLD, USAGE_WARNING_THRESHOLD]
    split_ifs with hb hc hw
    · simp only [BalanceInfo.mk.injEq]
      constructor
      · intro h; exact absurd h.2.2.1 (by decide)
      · intro h; exact absurd ⟨hb, by linarith⟩ h
    · simp only [BalanceInfo.mk.injEq]
      constructor
      · intro h; exact absurd h.2.2.1 (by decide)
      · intro h; exact absurd ⟨hb, by linarith⟩ h
    · simp only [BalanceInfo.mk.injEq, and_self, and_true, true_and]
      constructor
      · intro _ h
        exact absurd (by linarith [h.2] : (75:Rat)/100 ≤ total_usage / balance) hw
      · intro _; simp
    · simp only [BalanceInfo.mk.injEq, and_self, and_true, true_and]
      constructor
      · intro _ h; exact absurd h.1 hb
      · intro _; simp
  · norm_num [get_balance_info]
  · norm_num [get_balance_info, USAGE_ALERT_THRESHOLD, USAGE_WARNING_THRESHOLD]
  · norm_num [get_balance_info, USAGE_ALERT_THRESHOLD, USAGE_WARNING_THRESHOLD]
  · norm_num [get_balance_info, USAGE_ALERT_THRESHOLD, USAGE_WARNING_THRESHOLD]

/-! ### Helper lemmas for monotonicity and row uniqueness -/

theorem rowLe_refl (r : DailyRow) : rowLe r r := by
  unfold rowLe
  exact ⟨rfl, rfl, rfl, le_refl _, le_refl _, le_refl _, le_refl _, le_refl _,
    le_refl _, le_refl _⟩

/-- A raw SQL update that only grows each row grows the table pointwise. -/
theorem tableLe_sqlUpdate (rows : List DailyRow) (n : String)
    (f : DailyRow → DailyRow) (hf : ∀ r, rowLe r (f r)) :
    tableLe rows (sqlUpdateDaily rows n f) := by
  unfold tableLe
  constructor
  · unfold sqlUpdateDaily
    rw [List.length_map]
  · intro i r rB h1 h2
    unfold sqlUpdateDaily at h2
    rw [List.getElem?_map, h1] at h2
    simp only [Option.map_some', Option.some.injEq] at h2
    rw [← h2]
    by_cases hn : (r.name == n) = true
    · rw [if_pos hn]; exact hf r
    · rw [if_neg hn]; exact rowLe_refl r

/-- Appending a row leaves every existing row in place. -/
theorem tableLe_append (rows : List DailyRow) (x : DailyRow) :
    tableLe rows (rows ++ [x]) := by
  unfold tableLe
  constructor
  · simp
  · intro i r rB h1 h2
    have hlt : i < rows.length := (List.getElem?_eq_some_iff.mp h1).1
    rw [List.getElem?_append_left hlt, h1] at h2
    cases h2
    exact rowLe_refl r

/-- A raw SQL update that does not touch the key fields keeps every
per-key row count. -/
theorem keyCount_sqlUpdate (rows : List DailyRow) (n : String)
    (f : DailyRow → DailyRow)
    (hf : ∀ r, (f r).customer = r.customer ∧ (f r).row_date = r.row_date)
    (c : String) (d : CalDate) :
    keyCount (sqlUpdateDaily rows n f) c d = keyCount rows c d := by
  unfold keyCount sqlUpdateDaily
  rw [List.countP_map]
  apply List.countP_congr
  intro r _
  by_cases hn : (r.name == n) = true <;>
    simp [Function.comp, hn, (hf r).1, (hf r).2]

theorem keyCount_append_one (rows : List DailyRow) (x : DailyRow)
    (c : String) (d : CalDate) :
    keyCount (rows ++ [x]) c d =
      keyCount rows c d +
        (if (x.customer == c && x.row_date == d) = true then 1 else 0) := by
  unfold keyCount
  rw [List.countP_append]
  simp [List.countP_cons]

/-- A failed row lookup means no row with that key exists. -/
theorem keyCount_eq_zero_of_find_none (rows : List DailyRow)
    (customer_id : String) (today : CalDate)
    (h : findDailyRow rows customer_id today = none) :
    keyCount rows customer_id today = 0 := by
  unfold findDailyRow at h
  rw [Option.map_eq_none'] at h
  unfold keyCount
  rw [List.countP_eq_zero]
  exact List.find?_eq_none.mp h

/-- The document hooks of Daily Usage Metrics do not change the key. -/
theorem dailyHooks_key (r : DailyRow) :
    (dailyBeforeSave (dailyValidate r)).customer = r.customer ∧
    (dailyBeforeSave (dailyValidate r)).row_date = r.row_date := by
  simp only [dailyValidate, dailyBeforeSave]
  split_ifs <;> simp

/-- The ORM insert performed when the lookup found nothing preserves
per-key uniqueness. -/
theorem atMostOne_ormInsert (rows : List DailyRow) (x : DailyRow)
    (customer_id : String) (today : CalDate)
    (hx1 : x.customer = customer_id) (hx2 : x.row_date = today)
    (hfind : findDailyRow rows customer_id today = none)
    (c : String) (d : CalDate) (h : atMostOne rows c d) :
    atMostOne (ormInsertDaily rows x) c d := by
  unfold atMostOne at h ⊢
  unfold ormInsertDaily
  have hkey := dailyHooks_key x
  rw [keyCount_append_one]
  by_cases hp : ((dailyBeforeSave (dailyValidate x)).customer == c &&
      (dailyBeforeSave (dailyValidate x)).row_date == d) = true
  · rw [Bool.and_eq_true] at hp
    have hc : c = customer_id := by
      rw [← hx1, ← hkey.1]; exact (eq_of_beq hp.1).symm
    have hd : d = today := by
      rw [← hx2, ← hkey.2]; exact (eq_of_beq hp.2).symm
    subst hc; subst hd
    rw [keyCount_eq_zero_of_find_none rows c d hfind]
    split_ifs <;> omega
  · rw [if_neg hp]
    simpa using h

theorem rowLe_reportCallIncrement (count : Int) (dm cost : Rat)
    (hc : 0 ≤ count) (hd : 0 ≤ dm) (hco : 0 ≤ cost) (r : DailyRow) :
    rowLe r (reportCallIncrement count dm cost r) := by
  unfold rowLe reportCallIncrement
  dsimp only
  refine ⟨rfl, rfl, rfl, by omega, by linarith, le_refl _, by linarith,
    le_refl _, le_refl _, le_refl _⟩

theorem rowLe_reportMessageIncrement (count : Int) (cost : Rat)
    (hc : 0 ≤ count) (hco : 0 ≤ cost) (r : DailyRow) :
    rowLe r (reportMessageIncrement count cost r) := by
  unfold rowLe reportMessageIncrement
  dsimp only
  refine ⟨rfl, rfl, rfl, le_refl _, le_refl _, by omega, le_refl _,
    by linarith, le_refl _, le_refl _⟩

theorem rowLe_recordCallIncrement (dm : Rat) (cb : CostBreakdown)
    (hd : 0 ≤ dm) (h1 : 0 ≤ cb.base_cost) (h2 : 0 ≤ cb.markup)
    (h3 : 0 ≤ cb.total_cost) (r : DailyRow) :
    rowLe r (recordCallIncrement dm cb r) := by
  unfold rowLe recordCallIncrement
  dsimp only
  refine ⟨rfl, rfl, rfl, by omega, by linarith, le_refl _, by linarith,
    le_refl _, by linarith, by linarith⟩

/-- A raw SQL update that does not touch the key fields preserves
per-key uniqueness. -/
theorem atMostOne_sqlUpdate (rows : List DailyRow) (n : String)
    (f : DailyRow → DailyRow)
    (hf : ∀ r, (f r).customer = r.customer ∧ (f r).row_date = r.row_date)
    (c : String) (d : CalDate) (h : atMostOne rows c d) :
    atMostOne (sqlUpdateDaily rows n f) c d := by
  unfold atMostOne
  rw [keyCount_sqlUpdate rows n f hf]
  exact h

/-- C6 (amended) — for non-negative inputs, the metering writes are
monotone and key-unique: `report_usage` (with non-negative count,
duration and cost), `_record_call_metric` (with non-negative duration
and cost components) and `_record_message_metric` each leave every
pre-existing Daily Usage Row in place with every numeric field
non-decreasing, and preserve at-most-one-row-per-(tenant, date).  (The
claim as stated ranges over all accepted inputs; the operations also
accept negative counts and costs, which decrease fields — see the
counterexample.) -/
theorem c6_monotone_nonneg_amended (customer_id : String) (today : CalDate) :
    (∀ (rows rowsB : List DailyRow) (usage_type : String) (count : Int)
        (dm cost : Rat), 0 ≤ count → 0 ≤ dm → 0 ≤ cost →
        report_usage rows customer_id today usage_type count dm cost = some rowsB →
        tableLe rows rowsB ∧
        ∀ (c : String) (d : CalDate), atMostOne rows c d → atMostOne rowsB c d) ∧
    (∀ (rows : List DailyRow) (dur : Rat) (cb : CostBreakdown),
        0 ≤ dur → 0 ≤ cb.base_cost → 0 ≤ cb.markup → 0 ≤ cb.total_cost →
        tableLe rows (record_call_metric rows customer_id today dur cb) ∧
        ∀ (c : String) (d : CalDate), atMostOne rows c d →
          atMostOne (record_call_metric rows customer_id today dur cb) c d) ∧
    (∀ rows : List DailyRow,
        tableLe rows (record_message_metric rows customer_id today) ∧
        ∀ (c : String) (d : CalDate), atMostOne rows c d →
          atMostOne (record_message_metric rows customer_id today) c d) := by
  refine ⟨?_, ?_, ?_⟩
  · intro rows rowsB usage_type count dm cost hcnt hdm hcost h
    simp only [report_usage] at h
    split at h
    · simp at h
    · split at h
      · -- usage_type = "call"
        split at h
        · next n heq =>
          cases h
          refine ⟨tableLe_sqlUpdate rows n _
            (rowLe_reportCallIncrement count dm cost hcnt hdm hcost), ?_⟩
          intro c d hamo
          exact atMostOne_sqlUpdate rows n (reportCallIncrement count dm cost)
            (fun r => ⟨rfl, rfl⟩) c d hamo
        · next heq =>
          cases h
          refine ⟨tableLe_append rows _, ?_⟩
          intro c d hamo
          exact atMostOne_ormInsert rows _ customer_id today rfl rfl heq c d hamo
      · -- usage_type = "message"
        split at h
        · next n heq =>
          cases h
          refine ⟨tableLe_sqlUpdate rows n _
            (rowLe_reportMessageIncrement count cost hcnt hcost), ?_⟩
          intro c d hamo
          exact atMostOne_sqlUpdate rows n (reportMessageIncrement count cost)
            (fun r => ⟨rfl, rfl⟩) c d hamo
        · next heq =>
          cases h
          refine ⟨tableLe_append rows _, ?_⟩
          intro c d hamo
          exact atMostOne_ormInsert rows _ customer_id today rfl rfl heq c d hamo
  · intro rows dur cb hdur h1 h2 h3
    have hdm : 0 ≤ dur / 60 := by positivity
    simp only [record_call_metric]
    split
    · next n heq =>
      refine ⟨tableLe_sqlUpdate rows n _
        (rowLe_recordCallIncrement (dur / 60) cb hdm h1 h2 h3), ?_⟩
      intro c d hamo
      exact atMostOne_sqlUpdate rows n (recordCallIncrement (dur / 60) cb)
        (fun r => ⟨rfl, rfl⟩) c d hamo
    · next heq =>
      refine ⟨tableLe_append rows _, ?_⟩
      intro c d hamo
      exact atMostOne_ormInsert rows _ customer_id today rfl rfl heq c d hamo
  · intro rows
    simp only [record_message_metric]
    split
    · next n heq =>
      refine ⟨tableLe_sqlUpdate rows n _ ?_, ?_⟩
      · intro r
        unfold rowLe
        dsimp only
        refine ⟨rfl, rfl, rfl, le_refl _, le_refl _, by omega, le_refl _,
          le_refl _, le_refl _, le_refl _⟩
      · intro c d hamo
        exact atMostOne_sqlUpdate rows n
          (fun r => { r with total_messages := r.total_messages + 1 })
          (fun r => ⟨rfl, rfl⟩) c d hamo
    · next heq =>
      refine ⟨tableLe_append rows _, ?_⟩
      intro c d hamo
      exact atMostOne_ormInsert rows _ customer_id today rfl rfl heq c d hamo

/-- C6 witness: reporting three messages at cost 1 on a day that already
holds five messages grows the single row monotonically and keeps it
unique. -/
theorem c6_monotone_nonneg_witness :
    tableLe [⟨"DUM-0", "CUST-001", ⟨2025, 1, 15⟩, 0, 0, 5, 0, 0, 0, 0⟩]
        [⟨"DUM-0", "CUST-001", ⟨2025, 1, 15⟩, 0, 0, 8, 0, 1, 0, 0⟩] ∧
    atMostOne [⟨"DUM-0", "CUST-001", ⟨2025, 1, 15⟩, 0, 0, 8, 0, 1, 0, 0⟩]
        "CUST-001" ⟨2025, 1, 15⟩ := by
  have h := (c6_monotone_nonneg_amended "CUST-001" ⟨2025, 1, 15⟩).1
    [⟨"DUM-0", "CUST-001", ⟨2025, 1, 15⟩, 0, 0, 5, 0, 0, 0, 0⟩]
    [⟨"DUM-0", "CUST-001", ⟨2025, 1, 15⟩, 0, 0, 8, 0, 1, 0, 0⟩]
    "message" 3 0 1 (by norm_num) (by norm_num) (by norm_num)
    (by
      norm_num [report_usage, findDailyRow, List.find?, sqlUpdateDaily,
        reportMessageIncrement]
      exact fun hx => absurd hx (by decide))
  exact ⟨h.1, h.2 "CUST-001" ⟨2025, 1, 15⟩
    (by norm_num [atMostOne, keyCount, List.countP, List.countP.go])⟩

/-! ### Helper lemmas for aggregation and invoicing -/

/-- Mapping a function that fixes every member is the identity. -/
theorem map_fix {α : Type} (f : α → α) (l : List α) (h : ∀ x ∈ l, f x = x) :
    l.map f = l := by
  induction l with
  | nil => rfl
  | cons a as ih =>
    simp only [List.map_cons]
    rw [h a (by simp), ih (fun x hx => h x (by simp [hx]))]

/-- Two predicates that agree on the members give the same `find?`. -/
theorem find?_congr_pred {α : Type} (p q : α → Bool) (l : List α)
    (h : ∀ x ∈ l, p x = q x) : l.find? p = l.find? q := by
  induction l with
  | nil => rfl
  | cons a as ih =>
    have ha := h a (by simp)
    cases hq : q a with
    | true => simp [List.find?_cons, ha, hq]
    | false =>
      simp only [List.find?_cons, ha, hq]
      exact ih (fun x hx => h x (by simp [hx]))

/-- The aggregation's `set_value` write does not change a summary's
name, customer, month or `invoice_generated` flag. -/
theorem aggUpd_fields (n : String) (t : AggTotals) (bf : Rat)
    (x : MonthlySummary) :
    (if (x.name == n) = true then applySummaryValues t bf x else x).name =
        x.name ∧
    (if (x.name == n) = true then applySummaryValues t bf x else x).customer =
        x.customer ∧
    (if (x.name == n) = true then applySummaryValues t bf x else x).month =
        x.month ∧
    (if (x.name == n) = true then applySummaryValues t bf x
        else x).invoice_generated = x.invoice_generated := by
  by_cases hx : (x.name == n) = true <;> simp [hx, applySummaryValues]

/-- Writing the same six values twice equals writing them once. -/
theorem applySummaryValues_idem (t : AggTotals) (bf : Rat)
    (x : MonthlySummary) :
    applySummaryValues t bf (applySummaryValues t bf x) =
      applySummaryValues t bf x := rfl

/-- The summary lookup commutes with the aggregation's update map. -/
theorem findSummary_map_aggUpd (l : List MonthlySummary) (cid ms n : String)
    (t : AggTotals) (bf : Rat) :
    findSummary
        (l.map (fun x =>
          if (x.name == n) = true then applySummaryValues t bf x else x))
        cid ms =
      (findSummary l cid ms).map (fun x =>
        if (x.name == n) = true then applySummaryValues t bf x else x) := by
  unfold findSummary
  rw [List.find?_map]
  congr 1
  apply find?_congr_pred
  intro x _
  simp only [Function.comp_apply]
  rw [(aggUpd_fields n t bf x).2.1, (aggUpd_fields n t bf x).2.2.1]

/-- C9 — aggregation idempotence: when one aggregation run succeeds
(customer and linked plan resolvable) and summary names are fresh (no
existing summary already carries the autoname the insert would use),
running `_aggregate_customer_metrics` again on the result with the same
daily rows returns the state unchanged: the summary is identical, no
duplicate summary row appears, the tables of daily rows, customers and
plans are untouched, and no summary's `invoice_generated` flag ever
changes — in particular it is never flipped from true back to false. -/
theorem c9_aggregation_idempotent (s s1 : AggState) (cid : String)
    (year mo : Int)
    (hfresh : ∀ x ∈ s.summaries, x.name ≠ freshSummaryName s.summaries)
    (h : aggregate_customer_metrics s cid year mo = some s1) :
    aggregate_customer_metrics s1 cid year mo = some s1 ∧
    s1.daily = s.daily ∧ s1.customers = s.customers ∧ s1.plans = s.plans ∧
    s.summaries.length ≤ s1.summaries.length ∧
    (∀ (i : Nat) (x x1 : MonthlySummary), s.summaries[i]? = some x →
      s1.summaries[i]? = some x1 →
      x1.invoice_generated = x.invoice_generated ∧ x1.name = x.name ∧
      x1.customer = x.customer ∧ x1.month = x.month) := by
  simp only [aggregate_customer_metrics] at h
  split at h
  · exact absurd h (by simp)
  · next base_fee hbf =>
    split at h
    · next n hfindn =>
      injection h with h'
      subst h'
      refine ⟨?_, rfl, rfl, rfl, by simp, ?_⟩
      · simp only [aggregate_customer_metrics]
        rw [hbf]
        rcases Option.map_eq_some'.mp hfindn with ⟨x0, hx0, hx0n⟩
        have hf2 :
            (findSummary
              (s.summaries.map (fun x =>
                if (x.name == n) = true then
                  applySummaryValues (aggTotals s.daily cid year mo) base_fee x
                else x))
              cid (formatMonth year mo)).map (fun x => x.name) = some n := by
          rw [findSummary_map_aggUpd, hx0]
          simp only [Option.map_some']
          rw [(aggUpd_fields n (aggTotals s.daily cid year mo) base_fee x0).1,
            hx0n]
        rw [hf2]
        simp only [Option.some.injEq, AggState.mk.injEq, true_and]
        rw [List.map_map]
        apply List.map_congr_left
        intro x _
        simp only [Function.comp_apply]
        by_cases hx : (x.name == n) = true
        · rw [if_pos hx]
          rw [if_pos (show ((applySummaryValues (aggTotals s.daily cid year mo)
              base_fee x).name == n) = true from hx)]
          exact applySummaryValues_idem _ _ _
        · rw [if_neg hx, if_neg hx]
      · intro i x x1 h1 h2
        rw [List.getElem?_map, h1] at h2
        simp only [Option.map_some', Option.some.injEq] at h2
        subst h2
        by_cases hx : (x.name == n) = true <;> simp [hx, applySummaryValues]
    · next hfind0 =>
      injection h with h'
      subst h'
      have hfnone : findSummary s.summaries cid (formatMonth year mo) = none :=
        Option.map_eq_none'.mp hfind0
      refine ⟨?_, rfl, rfl, rfl, by simp, ?_⟩
      · simp only [aggregate_customer_metrics]
        rw [hbf]
        have hf2 : (findSummary (s.summaries ++
            [applySummaryValues (aggTotals s.daily cid year mo) base_fee
              ⟨freshSummaryName s.summaries, cid, formatMonth year mo,
               0, 0, 0, 0, 0, 0, false⟩])
            cid (formatMonth year mo)).map (fun x => x.name) =
            some (freshSummaryName s.summaries) := by
          unfold findSummary at hfnone ⊢
          rw [List.find?_append, hfnone]
          simp [List.find?, applySummaryValues]
        rw [hf2]
        simp only [Option.some.injEq, AggState.mk.injEq, true_and]
        rw [List.map_append]
        congr 1
        · apply map_fix
          intro x hx
          rw [if_neg (by
            intro hcontra
            exact hfresh x hx (eq_of_beq hcontra))]
        · simp only [List.map_cons, List.map_nil]
          rw [if_pos (show ((applySummaryValues (aggTotals s.daily cid year mo)
              base_fee ⟨freshSummaryName s.summaries, cid, formatMonth year mo,
                0, 0, 0, 0, 0, 0, false⟩).name ==
              freshSummaryName s.summaries) = true by simp [applySummaryValues])]
          rw [applySummaryValues_idem]
      · intro i x x1 h1 h2
        have hlt : i < s.summaries.length := (List.getElem?_eq_some_iff.mp h1).1
        rw [List.getElem?_append_left hlt, h1] at h2
        cases h2
        exact ⟨rfl, rfl, rfl, rfl⟩

/-- C9 witness: one daily row for January 2025; after the first
aggregation run has produced the summary, a second run leaves the state
unchanged. -/
theorem c9_aggregation_idempotent_witness :
    aggregate_customer_metrics
        ⟨[⟨"DUM-0", "CUST-001", ⟨2025, 1, 15⟩, 2, 10, 3, 1, 2, 3, 6⟩],
         [⟨"CUST-001", "Active", "https://tenant.example.com", 0, none⟩], [],
         [⟨"MUS-0", "CUST-001", formatMonth 2025 1, 2, 10, 3, 0, 6, 6, false⟩]⟩
        "CUST-001" 2025 1 =
      some
        ⟨[⟨"DUM-0", "CUST-001", ⟨2025, 1, 15⟩, 2, 10, 3, 1, 2, 3, 6⟩],
         [⟨"CUST-001", "Active", "https://tenant.example.com", 0, none⟩], [],
         [⟨"MUS-0", "CUST-001", formatMonth 2025 1, 2, 10, 3, 0, 6, 6, false⟩]⟩ := by
  have h := c9_aggregation_idempotent
    ⟨[⟨"DUM-0", "CUST-001", ⟨2025, 1, 15⟩, 2, 10, 3, 1, 2, 3, 6⟩],
     [⟨"CUST-001", "Active", "https://tenant.example.com", 0, none⟩], [], []⟩
    ⟨[⟨"DUM-0", "CUST-001", ⟨2025, 1, 15⟩, 2, 10, 3, 1, 2, 3, 6⟩],
     [⟨"CUST-001", "Active", "https://tenant.example.com", 0, none⟩], [],
     [⟨"MUS-0", "CUST-001", formatMonth 2025 1, 2, 10, 3, 0, 6, 6, false⟩]⟩
    "CUST-001" 2025 1 (by simp)
    (by
      norm_num [aggregate_customer_metrics, baseFeeOf, getCustomer,
        List.find?, aggTotals, dailyInMonth, monthStart, monthEnd, predDay,
        daysInMonth, isLeap, dateLe, findSummary, freshSummaryName,
        applySummaryValues, List.filter]
      constructor)
  exact h.1

/-- The invoicing loop appends exactly one invoice per selected summary. -/
theorem invoiceLoop_invoices (md : CalDate) (sel : List MonthlySummary) :
    ∀ st : InvoiceState,
      (sel.foldl (fun acc summary => generate_customer_invoice acc summary md)
          st).invoices =
        st.invoices ++ sel.map (fun y => mkInvoice y md) := by
  induction sel with
  | nil => intro st; simp
  | cons y ys ih =>
    intro st
    rw [List.foldl_cons, ih]
    simp [generate_customer_invoice]

/-- The invoicing loop's cumulative effect on the summaries table is to
flag every summary whose name belongs to a processed summary. -/
theorem invoiceLoop_summaries (md : CalDate) (sel : List MonthlySummary) :
    ∀ st : InvoiceState,
      (sel.foldl (fun acc summary => generate_customer_invoice acc summary md)
          st).summaries =
        st.summaries.map (flagIfIn (sel.map (fun y => y.name))) := by
  induction sel with
  | nil =>
    intro st
    simp only [List.foldl_nil, List.map_nil]
    rw [map_fix]
    intro x _
    simp [flagIfIn]
  | cons y ys ih =>
    intro st
    rw [List.foldl_cons, ih]
    simp only [generate_customer_invoice, List.map_map, List.map_cons]
    apply List.map_congr_left
    intro x _
    simp only [Function.comp_apply]
    by_cases hxy : (x.name == y.name) = true
    · rw [if_pos hxy]
      have he : x.name = y.name := eq_of_beq hxy
      unfold flagIfIn
      by_cases hc : ((ys.map (fun y => y.name)).contains x.name) = true <;>
        simp [hc, List.contains_cons, he]
    · rw [if_neg hxy]
      unfold flagIfIn
      have hne : ¬ x.name = y.name := fun hcon => hxy (by rw [hcon]; simp)
      simp [List.contains_cons, hne]

/-- After one invoicing run nothing of the month remains selectable:
every summary of the previous month now has `invoice_generated = true`. -/
theorem invoiceSelection_after_run (st : InvoiceState) (today : CalDate) :
    invoiceSelection (generate_monthly_invoices st today).summaries today = [] := by
  unfold generate_monthly_invoices
  rw [invoiceLoop_summaries]
  unfold invoiceSelection
  rw [List.filter_eq_nil_iff]
  intro a ha
  rcases List.mem_map.mp ha with ⟨x, hx, hax⟩
  by_cases hcx :
      (((st.summaries.filter (fun x =>
        x.month == formatMonth (prevMonthOf today).year (prevMonthOf today).month &&
          !x.invoice_generated)).map (fun y => y.name)).contains x.name) = true
  · rw [← hax]
    unfold flagIfIn
    rw [if_pos hcx]
    simp
  · rw [← hax]
    unfold flagIfIn
    rw [if_neg hcx]
    simp only [Bool.and_eq_true, Bool.not_eq_true', not_and]
    intro hmonth hflag
    apply hcx
    apply List.contains_iff_exists_mem_beq.mpr
    refine ⟨x.name, List.mem_map.mpr ⟨x, List.mem_filter.mpr ⟨hx, ?_⟩, rfl⟩, by simp⟩
    simp [hmonth, hflag]

/-- C10 — invoice non-duplication: running the monthly invoicing job a
second time changes nothing (the first run set `invoice_generated` on
every summary it selected, so the second run's selection is empty); the
first run appends exactly one invoice per selected summary, each with
status Draft, so each tenant gains exactly as many invoices as it has
not-yet-invoiced summaries for the previous month — exactly one under
the one-summary-per-(tenant, month) invariant. -/
theorem c10_invoice_generation_idempotent (st : InvoiceState) (today : CalDate) :
    generate_monthly_invoices (generate_monthly_invoices st today) today =
      generate_monthly_invoices st today ∧
    (generate_monthly_invoices st today).invoices =
      st.invoices ++
        (invoiceSelection st.summaries today).map
          (fun y => mkInvoice y (prevMonthOf today)) ∧
    (∀ y : MonthlySummary,
      (mkInvoice y (prevMonthOf today)).invoice_status = "Draft") ∧
    (∀ cname : String,
      (generate_monthly_invoices st today).invoices.countP
          (fun i => i.customer == cname) =
        st.invoices.countP (fun i => i.customer == cname) +
          (invoiceSelection st.summaries today).countP
            (fun y => y.customer == cname)) := by
  have hsel := invoiceSelection_after_run st today
  refine ⟨?_, ?_, fun y => rfl, ?_⟩
  · conv_lhs => rw [generate_monthly_invoices, hsel]
    rfl
  · unfold generate_monthly_invoices invoiceSelection
    rw [invoiceLoop_invoices]
  · intro cname
    unfold generate_monthly_invoices invoiceSelection
    rw [invoiceLoop_invoices, List.countP_append, List.countP_map]
    congr 1

end Walue
